import Mathlib

/-!
# HdRprimCollection (pxr/imaging/lib/hd/rprimCollection.cpp)

A shallow embedding of the collection descriptor of Hydra: its three
constructors, the dirty-bit aggregation, the root/exclude path setters,
the hash and the equality operator.

The collaborators that live outside the translation unit are parameters:

* the path type `SdfPath` is a type `P` carrying a linear order
  (`operator<`, `operator==`), together with `IsAbsolutePath`, `GetText`,
  `SdfPath::Hash` and the constant `SdfPath::AbsoluteRootPath()`;
* `TfToken` is an interned string, compared by content; `TfToken::Hash`
  is a parameter;
* the four `GetDirtyBitsMask` providers are parameters; the constant
  `HdChangeTracker::Clean` is modelled from the specification;
* `TF_CODING_ERROR` appends its message to a diagnostic sink that is
  threaded through every operation that can report.
-/

namespace HdRprimCollectionSpec

/-- Tokens are interned strings; two tokens are equal exactly when their
texts are equal, and the default token is the empty string. -/
abbrev TfToken := String

/-- The diagnostic sink: the coding errors reported so far, oldest first. -/
abbrev Diagnostics := List String

/-- The collaborators of the descriptor that are declared outside
`rprimCollection.cpp`. -/
structure Collaborators (P : Type) where
  /-- Method `SdfPath::IsAbsolutePath`. -/
  IsAbsolutePath : P → Bool
  /-- Constant `SdfPath::AbsoluteRootPath()`. -/
  AbsoluteRootPath : P
  /-- Method `SdfPath::GetText`. -/
  GetText : P → String
  /-- Functor `SdfPath::Hash()(path)`. -/
  SdfPath_Hash : P → Nat
  /-- Method `TfToken::Hash`. -/
  TfToken_Hash : TfToken → Nat
  /-- Provider `HdRprim::GetDirtyBitsMask`. -/
  HdRprim_GetDirtyBitsMask : TfToken → Nat
  /-- Provider `HdMesh::GetDirtyBitsMask`. -/
  HdMesh_GetDirtyBitsMask : TfToken → Nat
  /-- Provider `HdBasisCurves::GetDirtyBitsMask`. -/
  HdBasisCurves_GetDirtyBitsMask : TfToken → Nat
  /-- Provider `HdPoints::GetDirtyBitsMask`. -/
  HdPoints_GetDirtyBitsMask : TfToken → Nat
  /-- Width in bits of `size_t`. -/
  size_t_bits : Nat

/-- The data members of `HdRprimCollection`. -/
structure HdRprimCollection (P : Type) where
  _name : TfToken
  _reprName : TfToken
  _forcedRepr : Bool
  _rootPaths : List P
  _excludePaths : List P
  _dirtyBitsMask : Nat
deriving DecidableEq

/-- Modelled from the spec: `HdChangeTracker::Clean` is declared in
`changeTracker.h`, which is not part of this translation unit. The
specification describes it as the clean identity value of the bitmask type
under OR-aggregation, that is the mask with no bit set. -/
def HdChangeTracker_Clean : Nat := 0

section Model

variable {P : Type} [LinearOrder P]

/-- Library `std::sort(first, last)` with `operator<`. The standard fixes the
result as a rearrangement of the input in which no element is less than
its predecessor; over a linear order there is exactly one such list
(`std_sort_unique`), so the algorithm chosen here does not matter. -/
def std_sort (l : List P) : List P :=
  List.insertionSort (· ≤ ·) l

/-- Library `boost::hash_combine(seed, v)` on a `size_t` of `w` bits:
`seed ^= v + 0x9e3779b9 + (seed << 6) + (seed >> 2)`. -/
def hash_combine (w : Nat) (seed v : Nat) : Nat :=
  seed ^^^ ((v + 0x9e3779b9 + (seed <<< 6) % 2 ^ w + (seed >>> 2)) % 2 ^ w)

/-- Source `HdRprimCollection::_ComputeDirtyBitsMask`. -/
def _ComputeDirtyBitsMask (env : Collaborators P) (c : HdRprimCollection P) :
    HdRprimCollection P :=
  let c1 := { c with _dirtyBitsMask := HdChangeTracker_Clean }
  let c2 := { c1 with _dirtyBitsMask := c1._dirtyBitsMask ||| env.HdRprim_GetDirtyBitsMask c1._reprName }
  let c3 := { c2 with _dirtyBitsMask := c2._dirtyBitsMask ||| env.HdMesh_GetDirtyBitsMask c2._reprName }
  let c4 := { c3 with _dirtyBitsMask := c3._dirtyBitsMask ||| env.HdBasisCurves_GetDirtyBitsMask c3._reprName }
  { c4 with _dirtyBitsMask := c4._dirtyBitsMask ||| env.HdPoints_GetDirtyBitsMask c4._reprName }

/-- Source `HdRprimCollection::HdRprimCollection()`. -/
def mkDefault (env : Collaborators P) : HdRprimCollection P :=
  { _name := ""
    _reprName := ""
    _forcedRepr := false
    _rootPaths := List.replicate 1 env.AbsoluteRootPath
    _excludePaths := []
    _dirtyBitsMask := HdChangeTracker_Clean }

/-- Source `HdRprimCollection::HdRprimCollection(name, reprName, forcedRepr)`. -/
def mkNamed (env : Collaborators P) (name reprName : TfToken) (forcedRepr : Bool) :
    HdRprimCollection P :=
  _ComputeDirtyBitsMask env
    { _name := name
      _reprName := reprName
      _forcedRepr := forcedRepr
      _rootPaths := List.replicate 1 env.AbsoluteRootPath
      _excludePaths := []
      _dirtyBitsMask := HdChangeTracker_Clean }

/-- Source `HdRprimCollection::HdRprimCollection(name, reprName, rootPath, forcedRepr)`.
The diagnostic sink is threaded through. -/
def mkRooted (env : Collaborators P) (name reprName : TfToken) (rootPath : P)
    (forcedRepr : Bool) (sink : Diagnostics) : HdRprimCollection P × Diagnostics :=
  let c0 : HdRprimCollection P :=
    { _name := name
      _reprName := reprName
      _forcedRepr := forcedRepr
      _rootPaths := []
      _excludePaths := []
      _dirtyBitsMask := HdChangeTracker_Clean }
  if !env.IsAbsolutePath rootPath then
    (_ComputeDirtyBitsMask env
        { c0 with _rootPaths := c0._rootPaths ++ [env.AbsoluteRootPath] },
      sink ++ ["Root path must be absolute"])
  else
    (_ComputeDirtyBitsMask env { c0 with _rootPaths := c0._rootPaths ++ [rootPath] }, sink)

/-- Source `HdRprimCollection::GetRootPaths`. -/
def GetRootPaths (c : HdRprimCollection P) : List P :=
  c._rootPaths

/-- Source `HdRprimCollection::GetExcludePaths`. -/
def GetExcludePaths (c : HdRprimCollection P) : List P :=
  c._excludePaths

/-- The validation loop shared by the two bulk setters,
`TF_FOR_ALL(pit, paths) { if (not pit->IsAbsolutePath()) { ...; return; } }`:
the element at which the loop returns early, if there is one. -/
def firstNonAbsolute (env : Collaborators P) : List P → Option P
  | [] => none
  | p :: rest => if !env.IsAbsolutePath p then some p else firstNonAbsolute env rest

/-- Source `HdRprimCollection::SetRootPaths`. -/
def SetRootPaths (env : Collaborators P) (c : HdRprimCollection P) (rootPaths : List P)
    (sink : Diagnostics) : HdRprimCollection P × Diagnostics :=
  match firstNonAbsolute env rootPaths with
  | some p => (c, sink ++ ["Root path must be absolute (<" ++ env.GetText p ++ ">)"])
  | none => ({ c with _rootPaths := std_sort rootPaths }, sink)

/-- Source `HdRprimCollection::SetRootPath`. -/
def SetRootPath (env : Collaborators P) (c : HdRprimCollection P) (rootPath : P)
    (sink : Diagnostics) : HdRprimCollection P × Diagnostics :=
  if !env.IsAbsolutePath rootPath then
    (c, sink ++ ["Root path must be absolute"])
  else
    ({ c with _rootPaths := ([] : List P) ++ [rootPath] }, sink)

/-- Source `HdRprimCollection::SetExcludePaths`. -/
def SetExcludePaths (env : Collaborators P) (c : HdRprimCollection P) (excludePaths : List P)
    (sink : Diagnostics) : HdRprimCollection P × Diagnostics :=
  match firstNonAbsolute env excludePaths with
  | some p => (c, sink ++ ["Exclude path must be absolute (<" ++ env.GetText p ++ ">)"])
  | none => ({ c with _excludePaths := std_sort excludePaths }, sink)

/-- Source `HdRprimCollection::ComputeHash`. -/
def ComputeHash (env : Collaborators P) (c : HdRprimCollection P) : Nat :=
  let w := env.size_t_bits
  let h0 := env.TfToken_Hash c._name % 2 ^ w
  let h1 := hash_combine w h0 (env.TfToken_Hash c._reprName)
  let h2 := hash_combine w h1 (if c._forcedRepr then 1 else 0)
  let h3 := c._rootPaths.foldl (fun h p => hash_combine w h (env.SdfPath_Hash p)) h2
  let h4 := hash_combine w h3 c._dirtyBitsMask
  c._excludePaths.foldl (fun h p => hash_combine w h (env.SdfPath_Hash p)) h4

/-- Source `HdRprimCollection::operator==`. -/
def operatorEq (a b : HdRprimCollection P) : Bool :=
  decide (a._name = b._name)
    && decide (a._reprName = b._reprName)
    && decide (a._forcedRepr = b._forcedRepr)
    && decide (a._rootPaths = b._rootPaths)
    && decide (a._excludePaths = b._excludePaths)

/-- Source `HdRprimCollection::operator!=`. -/
def operatorNe (a b : HdRprimCollection P) : Bool :=
  !(operatorEq a b)

/-- Source `hash_value(HdRprimCollection const&)`. -/
def hash_value (env : Collaborators P) (v : HdRprimCollection P) : Nat :=
  ComputeHash env v

/-- The OR-aggregation, over the known primitive kinds (generic primitive,
mesh, curve, point cloud), of the dirty bits each kind tracks for the style
`reprName`. -/
def dirtyBitsAggregate (env : Collaborators P) (reprName : TfToken) : Nat :=
  env.HdRprim_GetDirtyBitsMask reprName ||| env.HdMesh_GetDirtyBitsMask reprName
    ||| env.HdBasisCurves_GetDirtyBitsMask reprName ||| env.HdPoints_GetDirtyBitsMask reprName

/-- Descriptors obtained from a constructor followed by any sequence of
`SetRootPaths`, `SetRootPath` and `SetExcludePaths` calls. The flag records
whether the sequence started at the default constructor. -/
inductive ReachableFrom (env : Collaborators P) : Bool → HdRprimCollection P → Prop
  | default : ReachableFrom env true (mkDefault env)
  | named (name reprName : TfToken) (forcedRepr : Bool) :
      ReachableFrom env false (mkNamed env name reprName forcedRepr)
  | rooted (name reprName : TfToken) (rootPath : P) (forcedRepr : Bool) (sink : Diagnostics) :
      ReachableFrom env false (mkRooted env name reprName rootPath forcedRepr sink).1
  | setRootPaths {o : Bool} {c : HdRprimCollection P} (paths : List P) (sink : Diagnostics) :
      ReachableFrom env o c → ReachableFrom env o (SetRootPaths env c paths sink).1
  | setRootPath {o : Bool} {c : HdRprimCollection P} (path : P) (sink : Diagnostics) :
      ReachableFrom env o c → ReachableFrom env o (SetRootPath env c path sink).1
  | setExcludePaths {o : Bool} {c : HdRprimCollection P} (paths : List P) (sink : Diagnostics) :
      ReachableFrom env o c → ReachableFrom env o (SetExcludePaths env c paths sink).1

/-- Descriptors reachable from any of the three constructors. -/
def Reachable (env : Collaborators P) (c : HdRprimCollection P) : Prop :=
  ∃ o, ReachableFrom env o c

/-- The registry of known primitive kinds (generic primitive, mesh, curve,
point cloud), each as its dirty-bit provider, in the order in which
`_ComputeDirtyBitsMask` consults them. -/
def knownKinds (env : Collaborators P) : List (TfToken → Nat) :=
  [env.HdRprim_GetDirtyBitsMask, env.HdMesh_GetDirtyBitsMask,
    env.HdBasisCurves_GetDirtyBitsMask, env.HdPoints_GetDirtyBitsMask]

/-- Specification-side aggregation: starting from clean, OR in the mask of
every kind of `kinds` for `reprName`, in list order. -/
def aggregateInOrder (kinds : List (TfToken → Nat)) (reprName : TfToken) : Nat :=
  kinds.foldl (fun m kind => m ||| kind reprName) HdChangeTracker_Clean

/-- Specification-side list of the values fed to the combine function after
the seed: hash of the style name, the forced flag, the hash of every root
path in sequence order, the dirty-bit mask, the hash of every exclude path
in sequence order. -/
def hashInputs (env : Collaborators P) (c : HdRprimCollection P) : List Nat :=
  [env.TfToken_Hash c._reprName, if c._forcedRepr then 1 else 0]
    ++ c._rootPaths.map env.SdfPath_Hash
    ++ [c._dirtyBitsMask]
    ++ c._excludePaths.map env.SdfPath_Hash

/-- Specification-side reference hash: the left-to-right fold of the combine
function over `hashInputs`, seeded with the hash of the name. -/
def referenceHash (env : Collaborators P) (c : HdRprimCollection P) : Nat :=
  (hashInputs env c).foldl (hash_combine env.size_t_bits)
    (env.TfToken_Hash c._name % 2 ^ env.size_t_bits)

end Model

/-- A small concrete world used to evaluate the model: paths are numbered,
path `0` is the absolute root, even numbers are absolute paths and odd
numbers are relative ones; every repr tracks one generic bit, and the
other kinds add bits according to the length of the repr name. -/
def sampleEnv : Collaborators Nat :=
  { IsAbsolutePath := fun p => p % 2 == 0
    AbsoluteRootPath := 0
    GetText := fun p => toString p
    SdfPath_Hash := fun p => p + 17
    TfToken_Hash := fun t => t.length
    HdRprim_GetDirtyBitsMask := fun _ => 1
    HdMesh_GetDirtyBitsMask := fun t => 2 * t.length
    HdBasisCurves_GetDirtyBitsMask := fun t => 4 * t.length
    HdPoints_GetDirtyBitsMask := fun _ => 8
    size_t_bits := 64 }

/-- A descriptor of the sample world with two roots and one excluded path. -/
def sampleCollection : HdRprimCollection Nat :=
  { _name := "geometry"
    _reprName := "hull"
    _forcedRepr := true
    _rootPaths := [4, 10]
    _excludePaths := [6]
    _dirtyBitsMask := 31 }

section Lemmas

variable {P : Type} [LinearOrder P]

theorem std_sort_sorted (l : List P) : List.Sorted (· ≤ ·) (std_sort l) :=
  List.sorted_insertionSort (· ≤ ·) l

theorem std_sort_perm (l : List P) : (std_sort l).Perm l :=
  List.perm_insertionSort (· ≤ ·) l

/-- Any non-decreasing rearrangement of `l` is the list `std_sort l`. -/
theorem std_sort_unique (l out : List P) (hp : out.Perm l) (hs : List.Sorted (· ≤ ·) out) :
    out = std_sort l :=
  List.eq_of_perm_of_sorted (hp.trans (std_sort_perm l).symm) hs (std_sort_sorted l)

end Lemmas

section ValidationLemmas

variable {P : Type}

theorem firstNonAbsolute_eq_none (env : Collaborators P) (ps : List P) :
    firstNonAbsolute env ps = none ↔ ∀ p ∈ ps, env.IsAbsolutePath p = true := by
  induction ps with
  | nil => simp [firstNonAbsolute]
  | cons q rest ih =>
    cases hq : env.IsAbsolutePath q <;> simp [firstNonAbsolute, hq, ih]

/-- The validation loop stops at the first element that is not absolute. -/
theorem firstNonAbsolute_eq_some (env : Collaborators P) (pre post : List P) (p : P)
    (hpre : ∀ q ∈ pre, env.IsAbsolutePath q = true) (hp : env.IsAbsolutePath p = false) :
    firstNonAbsolute env (pre ++ p :: post) = some p := by
  induction pre with
  | nil => simp [firstNonAbsolute, hp]
  | cons q rest ih =>
    have hq : env.IsAbsolutePath q = true := hpre q (by simp)
    have hrest : ∀ r ∈ rest, env.IsAbsolutePath r = true := fun r hr => hpre r (by simp [hr])
    simp [firstNonAbsolute, hq, ih hrest]

theorem firstNonAbsolute_isSome (env : Collaborators P) (ps : List P)
    (h : ∃ p ∈ ps, env.IsAbsolutePath p = false) :
    ∃ p, firstNonAbsolute env ps = some p := by
  cases hf : firstNonAbsolute env ps with
  | some p => exact ⟨p, rfl⟩
  | none =>
    obtain ⟨p, hp, habs⟩ := h
    have := (firstNonAbsolute_eq_none env ps).mp hf p hp
    simp [habs] at this

theorem ComputeDirtyBitsMask_mask (env : Collaborators P) (c : HdRprimCollection P) :
    (_ComputeDirtyBitsMask env c)._dirtyBitsMask = dirtyBitsAggregate env c._reprName := by
  simp [_ComputeDirtyBitsMask, dirtyBitsAggregate, HdChangeTracker_Clean]

theorem ComputeDirtyBitsMask_reprName (env : Collaborators P) (c : HdRprimCollection P) :
    (_ComputeDirtyBitsMask env c)._reprName = c._reprName := rfl

theorem SetRootPath_frame (env : Collaborators P) (c : HdRprimCollection P) (p : P)
    (sink : Diagnostics) :
    (SetRootPath env c p sink).1._dirtyBitsMask = c._dirtyBitsMask
      ∧ (SetRootPath env c p sink).1._reprName = c._reprName := by
  unfold SetRootPath
  cases env.IsAbsolutePath p <;> exact ⟨rfl, rfl⟩

theorem mkRooted_mask (env : Collaborators P) (name reprName : TfToken) (rootPath : P)
    (forcedRepr : Bool) (sink : Diagnostics) :
    (mkRooted env name reprName rootPath forcedRepr sink).1._dirtyBitsMask
        = dirtyBitsAggregate env reprName
      ∧ (mkRooted env name reprName rootPath forcedRepr sink).1._reprName = reprName := by
  unfold mkRooted
  cases env.IsAbsolutePath rootPath <;>
    simp [ComputeDirtyBitsMask_mask, ComputeDirtyBitsMask_reprName]

/-- A list with an element that is not absolute splits at its first such
element. -/
theorem first_offender_split (env : Collaborators P) (ps : List P)
    (h : ∃ p ∈ ps, env.IsAbsolutePath p = false) :
    ∃ (pre post : List P) (p : P), ps = pre ++ p :: post
      ∧ (∀ q ∈ pre, env.IsAbsolutePath q = true) ∧ env.IsAbsolutePath p = false := by
  induction ps with
  | nil => simp at h
  | cons a rest ih =>
    cases ha : env.IsAbsolutePath a with
    | false => exact ⟨[], rest, a, rfl, by simp, ha⟩
    | true =>
      have hrest : ∃ p ∈ rest, env.IsAbsolutePath p = false := by
        obtain ⟨p, hp, habs⟩ := h
        rcases List.mem_cons.mp hp with rfl | hp
        · simp [ha] at habs
        · exact ⟨p, hp, habs⟩
      obtain ⟨pre, post, p, hps, hpre, hp⟩ := ih hrest
      refine ⟨a :: pre, post, p, by simp [hps], ?_, hp⟩
      intro q hq
      rcases List.mem_cons.mp hq with rfl | hq
      · exact ha
      · exact hpre q hq

end ValidationLemmas

section FrameLemmas

variable {P : Type} [LinearOrder P]

theorem SetRootPaths_frame (env : Collaborators P) (c : HdRprimCollection P) (ps : List P)
    (sink : Diagnostics) :
    (SetRootPaths env c ps sink).1._dirtyBitsMask = c._dirtyBitsMask
      ∧ (SetRootPaths env c ps sink).1._reprName = c._reprName := by
  unfold SetRootPaths
  cases firstNonAbsolute env ps <;> exact ⟨rfl, rfl⟩

theorem SetExcludePaths_frame (env : Collaborators P) (c : HdRprimCollection P) (ps : List P)
    (sink : Diagnostics) :
    (SetExcludePaths env c ps sink).1._dirtyBitsMask = c._dirtyBitsMask
      ∧ (SetExcludePaths env c ps sink).1._reprName = c._reprName := by
  unfold SetExcludePaths
  cases firstNonAbsolute env ps <;> exact ⟨rfl, rfl⟩

/-- The mask of a reachable descriptor is fixed by where the sequence of
calls started: clean (with an empty repr name) after the default
constructor, the aggregation for the repr name otherwise. -/
theorem reachableFrom_mask (env : Collaborators P) {o : Bool} {c : HdRprimCollection P}
    (h : ReachableFrom env o c) :
    c._dirtyBitsMask
        = (if o then HdChangeTracker_Clean else dirtyBitsAggregate env c._reprName)
      ∧ (o = true → c._reprName = "") := by
  induction h with
  | default => exact ⟨rfl, fun _ => rfl⟩
  | named name reprName forcedRepr =>
    refine ⟨?_, by simp⟩
    simp [mkNamed, ComputeDirtyBitsMask_mask, ComputeDirtyBitsMask_reprName]
  | rooted name reprName rootPath forcedRepr sink =>
    refine ⟨?_, by simp⟩
    simp [mkRooted_mask]
  | setRootPaths paths sink _ ih =>
    rw [(SetRootPaths_frame env _ paths sink).1, (SetRootPaths_frame env _ paths sink).2]
    exact ih
  | setRootPath path sink _ ih =>
    rw [(SetRootPath_frame env _ path sink).1, (SetRootPath_frame env _ path sink).2]
    exact ih
  | setExcludePaths paths sink _ ih =>
    rw [(SetExcludePaths_frame env _ paths sink).1, (SetExcludePaths_frame env _ paths sink).2]
    exact ih

theorem operatorEq_iff (a b : HdRprimCollection P) :
    operatorEq a b = true ↔
      a._name = b._name ∧ a._reprName = b._reprName ∧ a._forcedRepr = b._forcedRepr
        ∧ a._rootPaths = b._rootPaths ∧ a._excludePaths = b._excludePaths := by
  simp [operatorEq, and_assoc]

/-- The hash is a function of the six data members. -/
theorem ComputeHash_congr (env : Collaborators P) (a b : HdRprimCollection P)
    (heq : operatorEq a b = true) (hmask : a._dirtyBitsMask = b._dirtyBitsMask) :
    ComputeHash env a = ComputeHash env b := by
  obtain ⟨h1, h2, h3, h4, h5⟩ := (operatorEq_iff a b).mp heq
  simp [ComputeHash, h1, h2, h3, h4, h5, hmask]

end FrameLemmas

section Claims

variable {P : Type} [LinearOrder P]

/-- C1. Validation atomicity of `SetRootPaths`: when the argument contains a
path that is not absolute, at any position, the call leaves `rootPaths`
equal to its value before the call, and the whole descriptor, hence every
other field, is unchanged as well. -/
theorem SetRootPaths_invalid_leaves_descriptor (env : Collaborators P)
    (d : HdRprimCollection P) (ps : List P) (sink : Diagnostics)
    (h : ∃ p ∈ ps, env.IsAbsolutePath p = false) :
    GetRootPaths (SetRootPaths env d ps sink).1 = GetRootPaths d
      ∧ (SetRootPaths env d ps sink).1 = d := by
  obtain ⟨p, hp⟩ := firstNonAbsolute_isSome env ps h
  simp [SetRootPaths, hp]

theorem SetRootPaths_invalid_leaves_descriptor_witness :
    (∃ p ∈ [2, 7, 4], sampleEnv.IsAbsolutePath p = false)
      ∧ (GetRootPaths (SetRootPaths sampleEnv sampleCollection [2, 7, 4] []).1
            = GetRootPaths sampleCollection
          ∧ (SetRootPaths sampleEnv sampleCollection [2, 7, 4] []).1 = sampleCollection) :=
  ⟨⟨7, by decide, by decide⟩,
    SetRootPaths_invalid_leaves_descriptor sampleEnv sampleCollection [2, 7, 4] []
      ⟨7, by decide, by decide⟩⟩

/-- C2. Sort invariant: when every element of the argument is absolute, in
any input order, the sequence returned by `GetRootPaths` after
`SetRootPaths` is non-decreasing under the order of the path type, and so
is the sequence returned by `GetExcludePaths` after `SetExcludePaths`. -/
theorem bulk_setters_store_sorted (env : Collaborators P) (d : HdRprimCollection P)
    (ps : List P) (sink : Diagnostics) (h : ∀ p ∈ ps, env.IsAbsolutePath p = true) :
    List.Sorted (· ≤ ·) (GetRootPaths (SetRootPaths env d ps sink).1)
      ∧ List.Sorted (· ≤ ·) (GetExcludePaths (SetExcludePaths env d ps sink).1) := by
  have hn := (firstNonAbsolute_eq_none env ps).mpr h
  simp only [SetRootPaths, SetExcludePaths, hn, GetRootPaths, GetExcludePaths]
  exact ⟨std_sort_sorted ps, std_sort_sorted ps⟩

theorem bulk_setters_store_sorted_witness :
    (∀ p ∈ [10, 2, 6, 2], sampleEnv.IsAbsolutePath p = true)
      ∧ (List.Sorted (· ≤ ·) (GetRootPaths (SetRootPaths sampleEnv sampleCollection [10, 2, 6, 2] []).1)
          ∧ List.Sorted (· ≤ ·)
              (GetExcludePaths (SetExcludePaths sampleEnv sampleCollection [10, 2, 6, 2] []).1)) :=
  ⟨by decide, bulk_setters_store_sorted sampleEnv sampleCollection [10, 2, 6, 2] [] (by decide)⟩

/-- C3. A successful bulk setter stores a sorted copy of its argument: when
every element of `ps` is absolute, the stored sequence is a permutation of
`ps`, of the same length and with the same number of occurrences of every
path, so duplicates are kept and no path is added or dropped. -/
theorem bulk_setters_store_permutation (env : Collaborators P) (d : HdRprimCollection P)
    (ps : List P) (sink : Diagnostics) (h : ∀ p ∈ ps, env.IsAbsolutePath p = true) :
    ((SetRootPaths env d ps sink).1._rootPaths.Perm ps
        ∧ (SetRootPaths env d ps sink).1._rootPaths.length = ps.length
        ∧ ∀ p, (SetRootPaths env d ps sink).1._rootPaths.count p = ps.count p)
      ∧ ((SetExcludePaths env d ps sink).1._excludePaths.Perm ps
        ∧ (SetExcludePaths env d ps sink).1._excludePaths.length = ps.length
        ∧ ∀ p, (SetExcludePaths env d ps sink).1._excludePaths.count p = ps.count p) := by
  have hn := (firstNonAbsolute_eq_none env ps).mpr h
  have hperm := std_sort_perm ps
  simp only [SetRootPaths, SetExcludePaths, hn]
  exact ⟨⟨hperm, hperm.length_eq, fun p => hperm.count_eq p⟩,
    ⟨hperm, hperm.length_eq, fun p => hperm.count_eq p⟩⟩

theorem bulk_setters_store_permutation_witness :
    (∀ p ∈ [10, 2, 6, 2], sampleEnv.IsAbsolutePath p = true)
      ∧ (((SetRootPaths sampleEnv sampleCollection [10, 2, 6, 2] []).1._rootPaths.Perm [10, 2, 6, 2]
          ∧ (SetRootPaths sampleEnv sampleCollection [10, 2, 6, 2] []).1._rootPaths.length
              = [10, 2, 6, 2].length
          ∧ ∀ p, (SetRootPaths sampleEnv sampleCollection [10, 2, 6, 2] []).1._rootPaths.count p
              = [10, 2, 6, 2].count p)
        ∧ ((SetExcludePaths sampleEnv sampleCollection [10, 2, 6, 2] []).1._excludePaths.Perm
              [10, 2, 6, 2]
          ∧ (SetExcludePaths sampleEnv sampleCollection [10, 2, 6, 2] []).1._excludePaths.length
              = [10, 2, 6, 2].length
          ∧ ∀ p, (SetExcludePaths sampleEnv sampleCollection [10, 2, 6, 2] []).1._excludePaths.count p
              = [10, 2, 6, 2].count p)) :=
  ⟨by decide, bulk_setters_store_permutation sampleEnv sampleCollection [10, 2, 6, 2] [] (by decide)⟩

/-- C4. `SetExcludePaths` follows the same validate-all-or-abort policy as
`SetRootPaths`: when the argument contains a path that is not absolute, the
call leaves `excludePaths`, and the whole descriptor, hence every other
field, exactly as before the call. -/
theorem SetExcludePaths_invalid_leaves_descriptor (env : Collaborators P)
    (d : HdRprimCollection P) (ps : List P) (sink : Diagnostics)
    (h : ∃ p ∈ ps, env.IsAbsolutePath p = false) :
    GetExcludePaths (SetExcludePaths env d ps sink).1 = GetExcludePaths d
      ∧ (SetExcludePaths env d ps sink).1 = d := by
  obtain ⟨p, hp⟩ := firstNonAbsolute_isSome env ps h
  simp [SetExcludePaths, hp]

theorem SetExcludePaths_invalid_leaves_descriptor_witness :
    (∃ p ∈ [3, 8], sampleEnv.IsAbsolutePath p = false)
      ∧ (GetExcludePaths (SetExcludePaths sampleEnv sampleCollection [3, 8] []).1
            = GetExcludePaths sampleCollection
          ∧ (SetExcludePaths sampleEnv sampleCollection [3, 8] []).1 = sampleCollection) :=
  ⟨⟨3, by decide, by decide⟩,
    SetExcludePaths_invalid_leaves_descriptor sampleEnv sampleCollection [3, 8] []
      ⟨3, by decide, by decide⟩⟩

/-- C5 (as stated, refuted). In the sample world the default-constructed
descriptor and the descriptor built from two empty tokens are both
reachable and compare equal, yet their hashes differ: the default
constructor leaves the mask clean while the other aggregates the kinds'
bits for the empty repr name, and the mask enters the hash. -/
theorem equal_reachable_descriptors_hash_differently :
    Reachable sampleEnv (mkDefault sampleEnv)
      ∧ Reachable sampleEnv (mkNamed sampleEnv "" "" false)
      ∧ operatorEq (mkDefault sampleEnv) (mkNamed sampleEnv "" "" false) = true
      ∧ ComputeHash sampleEnv (mkDefault sampleEnv)
          ≠ ComputeHash sampleEnv (mkNamed sampleEnv "" "" false) :=
  ⟨⟨true, ReachableFrom.default⟩, ⟨false, ReachableFrom.named "" "" false⟩, by decide, by decide⟩

/-- C5 (amended). For two descriptors, each obtained from a constructor
followed by any sequence of `SetRootPaths`, `SetRootPath` and
`SetExcludePaths` calls, that either both started at the default constructor
or both started at a non-default one (or when the kinds track no bit for
the empty repr name), `a == b` implies equal `ComputeHash`; `hash_value`
agrees with `ComputeHash`. -/
theorem equal_descriptors_hash_equal (env : Collaborators P) (o₁ o₂ : Bool)
    (a b : HdRprimCollection P) (ha : ReachableFrom env o₁ a) (hb : ReachableFrom env o₂ b)
    (horigin : o₁ = o₂ ∨ dirtyBitsAggregate env "" = HdChangeTracker_Clean)
    (heq : operatorEq a b = true) :
    ComputeHash env a = ComputeHash env b
      ∧ hash_value env a = ComputeHash env a ∧ hash_value env b = ComputeHash env b := by
  refine ⟨ComputeHash_congr env a b heq ?_, rfl, rfl⟩
  have hrepr : a._reprName = b._reprName := ((operatorEq_iff a b).mp heq).2.1
  obtain ⟨hma, hea⟩ := reachableFrom_mask env ha
  obtain ⟨hmb, heb⟩ := reachableFrom_mask env hb
  rw [hma, hmb]
  cases o₁ <;> cases o₂
  · simp [hrepr]
  · rcases horigin with h | h
    · cases h
    · have hb0 : b._reprName = "" := heb rfl
      simp [hrepr, hb0, h]
  · rcases horigin with h | h
    · cases h
    · have ha0 : a._reprName = "" := hea rfl
      simp [← hrepr, ha0, h]
  · simp

theorem equal_descriptors_hash_equal_witness :
    ReachableFrom sampleEnv false (SetRootPaths sampleEnv (mkNamed sampleEnv "n" "hull" true) [4, 2] []).1
      ∧ ReachableFrom sampleEnv false
          (SetRootPaths sampleEnv (mkRooted sampleEnv "n" "hull" 6 true []).1 [2, 4] []).1
      ∧ (false = false ∨ dirtyBitsAggregate sampleEnv "" = HdChangeTracker_Clean)
      ∧ operatorEq (SetRootPaths sampleEnv (mkNamed sampleEnv "n" "hull" true) [4, 2] []).1
          (SetRootPaths sampleEnv (mkRooted sampleEnv "n" "hull" 6 true []).1 [2, 4] []).1 = true
      ∧ (ComputeHash sampleEnv (SetRootPaths sampleEnv (mkNamed sampleEnv "n" "hull" true) [4, 2] []).1
            = ComputeHash sampleEnv
                (SetRootPaths sampleEnv (mkRooted sampleEnv "n" "hull" 6 true []).1 [2, 4] []).1
          ∧ hash_value sampleEnv (SetRootPaths sampleEnv (mkNamed sampleEnv "n" "hull" true) [4, 2] []).1
              = ComputeHash sampleEnv
                  (SetRootPaths sampleEnv (mkNamed sampleEnv "n" "hull" true) [4, 2] []).1
          ∧ hash_value sampleEnv
                (SetRootPaths sampleEnv (mkRooted sampleEnv "n" "hull" 6 true []).1 [2, 4] []).1
              = ComputeHash sampleEnv
                  (SetRootPaths sampleEnv (mkRooted sampleEnv "n" "hull" 6 true []).1 [2, 4] []).1) :=
  ⟨ReachableFrom.setRootPaths [4, 2] [] (ReachableFrom.named "n" "hull" true),
    ReachableFrom.setRootPaths [2, 4] [] (ReachableFrom.rooted "n" "hull" 6 true []),
    Or.inl rfl, by decide,
    equal_descriptors_hash_equal sampleEnv false false _ _
      (ReachableFrom.setRootPaths [4, 2] [] (ReachableFrom.named "n" "hull" true))
      (ReachableFrom.setRootPaths [2, 4] [] (ReachableFrom.rooted "n" "hull" 6 true []))
      (Or.inl rfl) (by decide)⟩

/-- C6 (as stated, refuted). In the sample world the default-constructed
descriptor is reachable and its mask is clean, which is not the
OR-aggregation of the kinds' dirty bits for its (empty) repr name. -/
theorem default_mask_is_not_the_aggregation :
    Reachable sampleEnv (mkDefault sampleEnv)
      ∧ (mkDefault sampleEnv)._dirtyBitsMask
          ≠ dirtyBitsAggregate sampleEnv (mkDefault sampleEnv)._reprName :=
  ⟨⟨true, ReachableFrom.default⟩, by decide⟩

/-- C6 (amended). Dirty-mask invariant: in every descriptor reachable from
one of the two non-default constructors by any sequence of `SetRootPaths`,
`SetRootPath` and `SetExcludePaths` calls, the mask equals the OR-aggregation
over the known kinds of that kind's dirty bits for the descriptor's repr
name; in every descriptor reachable from the default constructor the mask
is clean. -/
theorem reachable_dirtyBitsMask (env : Collaborators P) (o : Bool) (c : HdRprimCollection P)
    (h : ReachableFrom env o c) :
    c._dirtyBitsMask
      = (if o then HdChangeTracker_Clean else dirtyBitsAggregate env c._reprName) :=
  (reachableFrom_mask env h).1

theorem reachable_dirtyBitsMask_witness :
    ReachableFrom sampleEnv false
        (SetExcludePaths sampleEnv (mkRooted sampleEnv "n" "hull" 6 true []).1 [8, 2] []).1
      ∧ (SetExcludePaths sampleEnv (mkRooted sampleEnv "n" "hull" 6 true []).1 [8, 2] []).1._dirtyBitsMask
          = (if false then HdChangeTracker_Clean
              else dirtyBitsAggregate sampleEnv
                (SetExcludePaths sampleEnv (mkRooted sampleEnv "n" "hull" 6 true []).1
                  [8, 2] []).1._reprName) :=
  ⟨ReachableFrom.setExcludePaths [8, 2] [] (ReachableFrom.rooted "n" "hull" 6 true []),
    reachable_dirtyBitsMask sampleEnv false _
      (ReachableFrom.setExcludePaths [8, 2] [] (ReachableFrom.rooted "n" "hull" 6 true []))⟩

/-- C7. Equality excludes the derived field: `a == b` holds exactly when
name, repr name, forced flag, root paths (element by element, in order)
and exclude paths are all equal; changing only the mask of a descriptor
gives descriptors that are reported equal; and `a != b` is the negation of
`a == b`. -/
theorem operatorEq_compares_five_fields (a b : HdRprimCollection P) (m₁ m₂ : Nat) :
    (operatorEq a b = true ↔
        a._name = b._name ∧ a._reprName = b._reprName ∧ a._forcedRepr = b._forcedRepr
          ∧ a._rootPaths = b._rootPaths ∧ a._excludePaths = b._excludePaths)
      ∧ operatorEq { a with _dirtyBitsMask := m₁ } { a with _dirtyBitsMask := m₂ } = true
      ∧ operatorNe a b = !(operatorEq a b) :=
  ⟨operatorEq_iff a b, by simp [operatorEq], rfl⟩

end Claims

section ConstructorAndSingleSetterClaims

variable {P : Type}

/-- C8. Single-root constructor fallback: when `rootPath` is absolute the
constructor stores exactly that path and reports nothing; when it is not
absolute it stores the absolute root instead and reports a coding error.
Either way `rootPaths` has exactly one element, `excludePaths` is empty, and
name, repr name and forced flag are stored as given. -/
theorem mkRooted_root_fallback (env : Collaborators P) (name reprName : TfToken) (rootPath : P)
    (forcedRepr : Bool) (sink : Diagnostics) :
    (env.IsAbsolutePath rootPath = true →
        GetRootPaths (mkRooted env name reprName rootPath forcedRepr sink).1 = [rootPath]
          ∧ (mkRooted env name reprName rootPath forcedRepr sink).2 = sink)
      ∧ (env.IsAbsolutePath rootPath = false →
        GetRootPaths (mkRooted env name reprName rootPath forcedRepr sink).1
            = [env.AbsoluteRootPath]
          ∧ (mkRooted env name reprName rootPath forcedRepr sink).2
              = sink ++ ["Root path must be absolute"])
      ∧ (GetRootPaths (mkRooted env name reprName rootPath forcedRepr sink).1).length = 1
      ∧ GetExcludePaths (mkRooted env name reprName rootPath forcedRepr sink).1 = []
      ∧ (mkRooted env name reprName rootPath forcedRepr sink).1._name = name
      ∧ (mkRooted env name reprName rootPath forcedRepr sink).1._reprName = reprName
      ∧ (mkRooted env name reprName rootPath forcedRepr sink).1._forcedRepr = forcedRepr := by
  unfold mkRooted GetRootPaths GetExcludePaths
  cases h : env.IsAbsolutePath rootPath <;> simp [_ComputeDirtyBitsMask]

theorem mkRooted_root_fallback_witness :
    GetRootPaths (mkRooted sampleEnv "n" "hull" 3 true []).1 = [sampleEnv.AbsoluteRootPath]
      ∧ (mkRooted sampleEnv "n" "hull" 3 true []).2 = [] ++ ["Root path must be absolute"] :=
  (mkRooted_root_fallback sampleEnv "n" "hull" 3 true []).2.1 (by decide)

/-- C9. `SetRootPath(path)`: when `path` is not absolute a coding error is
reported and the descriptor, `rootPaths` included, is left unchanged, with
no substitution of the absolute root; when `path` is absolute `rootPaths`
becomes the one-element sequence holding `path`, whatever it held before,
and no error is reported. -/
theorem SetRootPath_behaviour (env : Collaborators P) (d : HdRprimCollection P) (path : P)
    (sink : Diagnostics) :
    (env.IsAbsolutePath path = false →
        (SetRootPath env d path sink).1 = d
          ∧ GetRootPaths (SetRootPath env d path sink).1 = GetRootPaths d
          ∧ (SetRootPath env d path sink).2 = sink ++ ["Root path must be absolute"])
      ∧ (env.IsAbsolutePath path = true →
        GetRootPaths (SetRootPath env d path sink).1 = [path]
          ∧ (SetRootPath env d path sink).2 = sink) := by
  unfold SetRootPath GetRootPaths
  cases h : env.IsAbsolutePath path <;> simp

theorem SetRootPath_behaviour_witness :
    (SetRootPath sampleEnv sampleCollection 5 []).1 = sampleCollection
      ∧ GetRootPaths (SetRootPath sampleEnv sampleCollection 5 []).1 = GetRootPaths sampleCollection
      ∧ (SetRootPath sampleEnv sampleCollection 5 []).2 = [] ++ ["Root path must be absolute"] :=
  (SetRootPath_behaviour sampleEnv sampleCollection 5 []).1 (by decide)

end ConstructorAndSingleSetterClaims

section ReportingClaims

variable {P : Type} [LinearOrder P]

/-- C10. Bulk-setter error reporting: when the argument contains a path that
is not absolute, `SetRootPaths` and `SetExcludePaths` each append exactly one
coding error to the diagnostic sink, and that error carries the text of the
first such element in sequence order, whatever follows it; when every
element is absolute, the empty argument included, the sink is unchanged. -/
theorem bulk_setters_report_first_offender (env : Collaborators P) (d : HdRprimCollection P)
    (ps : List P) (sink : Diagnostics) :
    (∀ (pre post : List P) (p : P), ps = pre ++ p :: post →
        (∀ q ∈ pre, env.IsAbsolutePath q = true) → env.IsAbsolutePath p = false →
        (SetRootPaths env d ps sink).2
            = sink ++ ["Root path must be absolute (<" ++ env.GetText p ++ ">)"]
          ∧ (SetExcludePaths env d ps sink).2
            = sink ++ ["Exclude path must be absolute (<" ++ env.GetText p ++ ">)"])
      ∧ ((∃ p ∈ ps, env.IsAbsolutePath p = false) →
        ∃ (pre post : List P) (p : P), ps = pre ++ p :: post
          ∧ (∀ q ∈ pre, env.IsAbsolutePath q = true) ∧ env.IsAbsolutePath p = false)
      ∧ ((∀ q ∈ ps, env.IsAbsolutePath q = true) →
        (SetRootPaths env d ps sink).2 = sink ∧ (SetExcludePaths env d ps sink).2 = sink) := by
  refine ⟨?_, ?_, ?_⟩
  · intro pre post p hps hpre hp
    have hf := firstNonAbsolute_eq_some env pre post p hpre hp
    subst hps
    simp [SetRootPaths, SetExcludePaths, hf]
  · intro h
    exact first_offender_split env ps h
  · intro h
    have hn := (firstNonAbsolute_eq_none env ps).mpr h
    simp [SetRootPaths, SetExcludePaths, hn]

theorem bulk_setters_report_first_offender_witness :
    (SetRootPaths sampleEnv sampleCollection [2, 7, 4, 9] ["earlier"]).2
        = ["earlier"] ++ ["Root path must be absolute (<" ++ sampleEnv.GetText 7 ++ ">)"]
      ∧ (SetExcludePaths sampleEnv sampleCollection [2, 7, 4, 9] ["earlier"]).2
        = ["earlier"] ++ ["Exclude path must be absolute (<" ++ sampleEnv.GetText 7 ++ ">)"] :=
  (bulk_setters_report_first_offender sampleEnv sampleCollection [2, 7, 4, 9] ["earlier"]).1
    [2] [4, 9] 7 rfl (by decide) (by decide)

end ReportingClaims

section ConstructionClaims

variable {P : Type}

/-- C11. Default construction: the default constructor gives empty name and
repr name, forced flag false, `rootPaths` holding exactly the absolute
root, empty `excludePaths` and a clean mask; the three-argument constructor
likewise gives `rootPaths` holding exactly the absolute root and empty
`excludePaths`, with name, repr name and forced flag stored as given. -/
theorem default_construction (env : Collaborators P) (name reprName : TfToken)
    (forcedRepr : Bool) :
    ((mkDefault env)._name = "" ∧ (mkDefault env)._reprName = ""
        ∧ (mkDefault env)._forcedRepr = false
        ∧ GetRootPaths (mkDefault env) = [env.AbsoluteRootPath]
        ∧ (GetRootPaths (mkDefault env)).length = 1
        ∧ GetExcludePaths (mkDefault env) = []
        ∧ (mkDefault env)._dirtyBitsMask = HdChangeTracker_Clean)
      ∧ (GetRootPaths (mkNamed env name reprName forcedRepr) = [env.AbsoluteRootPath]
        ∧ GetExcludePaths (mkNamed env name reprName forcedRepr) = []
        ∧ (mkNamed env name reprName forcedRepr)._name = name
        ∧ (mkNamed env name reprName forcedRepr)._reprName = reprName
        ∧ (mkNamed env name reprName forcedRepr)._forcedRepr = forcedRepr) := by
  simp [mkDefault, mkNamed, _ComputeDirtyBitsMask, GetRootPaths, GetExcludePaths]

/-- C12. Dirty-mask determinism: `_ComputeDirtyBitsMask` sets the mask to
clean OR the generic, mesh, curve and point-cloud masks for the repr name;
the resulting descriptor does not depend on the mask held before, the value
is the same for every order in which the known kinds are aggregated,
running the computation twice is the same as running it once, and the two
non-default constructors give the same mask for the same repr name. -/
theorem ComputeDirtyBitsMask_deterministic (env : Collaborators P) (c : HdRprimCollection P)
    (prior : Nat) (kinds : List (TfToken → Nat)) (name₁ name₂ : TfToken) (forced₁ forced₂ : Bool)
    (rootPath : P) (sink : Diagnostics) :
    (_ComputeDirtyBitsMask env c)._dirtyBitsMask
        = HdChangeTracker_Clean ||| env.HdRprim_GetDirtyBitsMask c._reprName
            ||| env.HdMesh_GetDirtyBitsMask c._reprName
            ||| env.HdBasisCurves_GetDirtyBitsMask c._reprName
            ||| env.HdPoints_GetDirtyBitsMask c._reprName
      ∧ _ComputeDirtyBitsMask env { c with _dirtyBitsMask := prior } = _ComputeDirtyBitsMask env c
      ∧ (kinds.Perm (knownKinds env) →
          aggregateInOrder kinds c._reprName = (_ComputeDirtyBitsMask env c)._dirtyBitsMask)
      ∧ _ComputeDirtyBitsMask env (_ComputeDirtyBitsMask env c) = _ComputeDirtyBitsMask env c
      ∧ (mkNamed env name₁ c._reprName forced₁)._dirtyBitsMask
          = (mkNamed env name₂ c._reprName forced₂)._dirtyBitsMask
      ∧ (mkNamed env name₁ c._reprName forced₁)._dirtyBitsMask
          = (mkRooted env name₂ c._reprName rootPath forced₂ sink).1._dirtyBitsMask := by
  refine ⟨rfl, rfl, ?_, rfl, rfl, ?_⟩
  · intro hperm
    have hfold := List.Perm.foldl_eq' (f := fun m (kind : TfToken → Nat) => m ||| kind c._reprName)
      hperm (fun x _ y _ z => by
        show z ||| x c._reprName ||| y c._reprName = z ||| y c._reprName ||| x c._reprName
        rw [Nat.lor_assoc, Nat.lor_comm (x c._reprName), ← Nat.lor_assoc])
      HdChangeTracker_Clean
    unfold aggregateInOrder
    rw [hfold]
    rfl
  · rw [(mkRooted_mask env name₂ c._reprName rootPath forced₂ sink).1]
    simp [mkNamed, ComputeDirtyBitsMask_mask]

theorem ComputeDirtyBitsMask_deterministic_witness :
    (knownKinds sampleEnv).reverse.Perm (knownKinds sampleEnv)
      ∧ aggregateInOrder (knownKinds sampleEnv).reverse sampleCollection._reprName
        = (_ComputeDirtyBitsMask sampleEnv sampleCollection)._dirtyBitsMask :=
  ⟨List.reverse_perm _,
    (ComputeDirtyBitsMask_deterministic sampleEnv sampleCollection 0
      (knownKinds sampleEnv).reverse "a" "b" true false 2 []).2.2.1 (List.reverse_perm _)⟩

/-- C13. `ComputeHash` is the reference left-to-right fold: seeded with the
hash of the name, the combine function is applied in turn to the hash of
the repr name, the forced flag, the hash of every root path in sequence
order, the mask, and the hash of every exclude path in sequence order;
`hash_value` is the same value; hence two descriptors whose six fields
are equal have equal hashes. -/
theorem ComputeHash_is_reference_fold (env : Collaborators P) (a b : HdRprimCollection P) :
    ComputeHash env a = referenceHash env a
      ∧ hash_value env a = referenceHash env a
      ∧ (a._name = b._name → a._reprName = b._reprName → a._forcedRepr = b._forcedRepr →
          a._rootPaths = b._rootPaths → a._dirtyBitsMask = b._dirtyBitsMask →
          a._excludePaths = b._excludePaths → ComputeHash env a = ComputeHash env b) := by
  have href : ComputeHash env a = referenceHash env a := by
    simp [ComputeHash, referenceHash, hashInputs, List.foldl_append, List.foldl_map]
  refine ⟨href, href, ?_⟩
  intro h1 h2 h3 h4 h5 h6
  simp [ComputeHash, h1, h2, h3, h4, h5, h6]

theorem ComputeHash_is_reference_fold_witness :
    ComputeHash sampleEnv sampleCollection
      = ComputeHash sampleEnv (SetRootPaths sampleEnv sampleCollection [10, 4] []).1 :=
  (ComputeHash_is_reference_fold sampleEnv sampleCollection
      (SetRootPaths sampleEnv sampleCollection [10, 4] []).1).2.2
    (by decide) (by decide) (by decide) (by decide) (by decide) (by decide)

end ConstructionClaims

section FrameAndRoundTripClaims

variable {P : Type} [LinearOrder P]

/-- C14. Replacing paths does not affect the dirty-bit mask: whatever the
argument, and whether the call succeeds or fails, `SetRootPaths`,
`SetRootPath` and `SetExcludePaths` leave mask, name, repr name and forced
flag unchanged; `SetRootPaths` and `SetRootPath` also leave `excludePaths`
unchanged, and `SetExcludePaths` leaves `rootPaths` unchanged. -/
theorem setters_frame (env : Collaborators P) (d : HdRprimCollection P) (ps : List P) (p : P)
    (sink : Diagnostics) :
    ((SetRootPaths env d ps sink).1._dirtyBitsMask = d._dirtyBitsMask
        ∧ (SetRootPaths env d ps sink).1._name = d._name
        ∧ (SetRootPaths env d ps sink).1._reprName = d._reprName
        ∧ (SetRootPaths env d ps sink).1._forcedRepr = d._forcedRepr
        ∧ (SetRootPaths env d ps sink).1._excludePaths = d._excludePaths)
      ∧ ((SetRootPath env d p sink).1._dirtyBitsMask = d._dirtyBitsMask
        ∧ (SetRootPath env d p sink).1._name = d._name
        ∧ (SetRootPath env d p sink).1._reprName = d._reprName
        ∧ (SetRootPath env d p sink).1._forcedRepr = d._forcedRepr
        ∧ (SetRootPath env d p sink).1._excludePaths = d._excludePaths)
      ∧ ((SetExcludePaths env d ps sink).1._dirtyBitsMask = d._dirtyBitsMask
        ∧ (SetExcludePaths env d ps sink).1._name = d._name
        ∧ (SetExcludePaths env d ps sink).1._reprName = d._reprName
        ∧ (SetExcludePaths env d ps sink).1._forcedRepr = d._forcedRepr
        ∧ (SetExcludePaths env d ps sink).1._rootPaths = d._rootPaths) := by
  refine ⟨?_, ?_, ?_⟩
  · unfold SetRootPaths
    cases firstNonAbsolute env ps <;> exact ⟨rfl, rfl, rfl, rfl, rfl⟩
  · unfold SetRootPath
    cases env.IsAbsolutePath p <;> exact ⟨rfl, rfl, rfl, rfl, rfl⟩
  · unfold SetExcludePaths
    cases firstNonAbsolute env ps <;> exact ⟨rfl, rfl, rfl, rfl, rfl⟩

/-- C15. Round-trip: constructing with a name, a repr name, an absolute
path and a flag and reading back `GetRootPaths` gives exactly that path,
and a fresh descriptor constructed with the same arguments is equal under
`==` to the first and has the same `ComputeHash`. -/
theorem mkRooted_round_trip (env : Collaborators P) (name reprName : TfToken) (rootPath : P)
    (forcedRepr : Bool) (sink₁ sink₂ : Diagnostics) (habs : env.IsAbsolutePath rootPath = true) :
    GetRootPaths (mkRooted env name reprName rootPath forcedRepr sink₁).1 = [rootPath]
      ∧ operatorEq (mkRooted env name reprName rootPath forcedRepr sink₁).1
          (mkRooted env name reprName rootPath forcedRepr sink₂).1 = true
      ∧ ComputeHash env (mkRooted env name reprName rootPath forcedRepr sink₁).1
          = ComputeHash env (mkRooted env name reprName rootPath forcedRepr sink₂).1 := by
  have hsame : (mkRooted env name reprName rootPath forcedRepr sink₁).1
      = (mkRooted env name reprName rootPath forcedRepr sink₂).1 := by
    simp [mkRooted, habs]
  refine ⟨by simp [mkRooted, habs, GetRootPaths, _ComputeDirtyBitsMask], ?_, by rw [hsame]⟩
  rw [hsame]
  simp [operatorEq]

theorem mkRooted_round_trip_witness :
    sampleEnv.IsAbsolutePath 6 = true
      ∧ (GetRootPaths (mkRooted sampleEnv "N" "S" 6 true []).1 = [6]
        ∧ operatorEq (mkRooted sampleEnv "N" "S" 6 true []).1
            (mkRooted sampleEnv "N" "S" 6 true ["earlier"]).1 = true
        ∧ ComputeHash sampleEnv (mkRooted sampleEnv "N" "S" 6 true []).1
            = ComputeHash sampleEnv (mkRooted sampleEnv "N" "S" 6 true ["earlier"]).1) :=
  ⟨by decide, mkRooted_round_trip sampleEnv "N" "S" 6 true [] ["earlier"] (by decide)⟩

end FrameAndRoundTripClaims

section ReachabilityLemmas

variable {P : Type} [LinearOrder P]

/-- In every reachable descriptor both path sequences hold absolute paths
only (given that the absolute root is absolute) and are sorted. -/
theorem reachableFrom_paths_wellformed (env : Collaborators P)
    (hroot : env.IsAbsolutePath env.AbsoluteRootPath = true) {o : Bool}
    {c : HdRprimCollection P} (h : ReachableFrom env o c) :
    (∀ p ∈ c._rootPaths, env.IsAbsolutePath p = true)
      ∧ (∀ p ∈ c._excludePaths, env.IsAbsolutePath p = true)
      ∧ List.Sorted (· ≤ ·) c._rootPaths ∧ List.Sorted (· ≤ ·) c._excludePaths := by
  induction h with
  | default => simp [mkDefault, hroot]
  | named name reprName forcedRepr => simp [mkNamed, _ComputeDirtyBitsMask, hroot]
  | rooted name reprName rootPath forcedRepr sink =>
    unfold mkRooted
    cases hp : env.IsAbsolutePath rootPath <;> simp [_ComputeDirtyBitsMask, hroot, hp]
  | setRootPaths paths sink _ ih =>
    unfold SetRootPaths
    cases hf : firstNonAbsolute env paths with
    | some q => exact ih
    | none =>
      have hall := (firstNonAbsolute_eq_none env paths).mp hf
      exact ⟨fun p hp => hall p ((std_sort_perm paths).mem_iff.mp hp), ih.2.1,
        std_sort_sorted paths, ih.2.2.2⟩
  | setRootPath path sink _ ih =>
    unfold SetRootPath
    cases hp : env.IsAbsolutePath path with
    | false => exact ih
    | true => exact ⟨by simp [hp], ih.2.1, by simp, ih.2.2.2⟩
  | setExcludePaths paths sink _ ih =>
    unfold SetExcludePaths
    cases hf : firstNonAbsolute env paths with
    | some q => exact ih
    | none =>
      have hall := (firstNonAbsolute_eq_none env paths).mp hf
      exact ⟨ih.1, fun p hp => hall p ((std_sort_perm paths).mem_iff.mp hp), ih.2.2.1,
        std_sort_sorted paths⟩

theorem std_sort_of_sorted (l : List P) (h : List.Sorted (· ≤ ·) l) : std_sort l = l :=
  List.Sorted.insertionSort_eq h

theorem std_sort_congr_perm (ps qs : List P) (h : qs.Perm ps) : std_sort qs = std_sort ps :=
  std_sort_unique ps (std_sort qs) ((std_sort_perm qs).trans h) (std_sort_sorted qs)

theorem operatorEq_self (a : HdRprimCollection P) : operatorEq a a = true := by
  simp [operatorEq]

/-- Combining two different machine words into the same seed gives two
different results. -/
theorem hash_combine_right_injective (w seed v₁ v₂ : Nat) (h₁ : v₁ < 2 ^ w) (h₂ : v₂ < 2 ^ w)
    (h : hash_combine w seed v₁ = hash_combine w seed v₂) : v₁ = v₂ := by
  unfold hash_combine at h
  have hmod := Nat.xor_right_inj.mp h
  have hcong : v₁ + (0x9e3779b9 + (seed <<< 6) % 2 ^ w + (seed >>> 2))
      ≡ v₂ + (0x9e3779b9 + (seed <<< 6) % 2 ^ w + (seed >>> 2)) [MOD 2 ^ w] := by
    simpa [Nat.ModEq, Nat.add_assoc] using hmod
  have hv : v₁ ≡ v₂ [MOD 2 ^ w] := Nat.ModEq.add_right_cancel' _ hcong
  unfold Nat.ModEq at hv
  rwa [Nat.mod_eq_of_lt h₁, Nat.mod_eq_of_lt h₂] at hv

end ReachabilityLemmas

section InvariantClaims

variable {P : Type} [LinearOrder P]

/-- C16. Absolute-path invariant: given that the absolute root is itself
absolute, in every descriptor reachable from any constructor, whatever its
arguments, by any sequence of `SetRootPaths`, `SetRootPath` and
`SetExcludePaths` calls, valid or not, every element of `rootPaths` and
every element of `excludePaths` is an absolute path. -/
theorem reachable_paths_absolute (env : Collaborators P) (c : HdRprimCollection P)
    (hroot : env.IsAbsolutePath env.AbsoluteRootPath = true) (h : Reachable env c) :
    (∀ p ∈ GetRootPaths c, env.IsAbsolutePath p = true)
      ∧ (∀ p ∈ GetExcludePaths c, env.IsAbsolutePath p = true) := by
  obtain ⟨o, ho⟩ := h
  have hw := reachableFrom_paths_wellformed env hroot ho
  exact ⟨hw.1, hw.2.1⟩

theorem reachable_paths_absolute_witness :
    sampleEnv.IsAbsolutePath sampleEnv.AbsoluteRootPath = true
      ∧ Reachable sampleEnv
          (SetExcludePaths sampleEnv
            (SetRootPaths sampleEnv (mkRooted sampleEnv "n" "hull" 3 true []).1 [8, 5] []).1
            [6, 2] []).1
      ∧ ((∀ p ∈ GetRootPaths
              (SetExcludePaths sampleEnv
                (SetRootPaths sampleEnv (mkRooted sampleEnv "n" "hull" 3 true []).1 [8, 5] []).1
                [6, 2] []).1, sampleEnv.IsAbsolutePath p = true)
        ∧ (∀ p ∈ GetExcludePaths
              (SetExcludePaths sampleEnv
                (SetRootPaths sampleEnv (mkRooted sampleEnv "n" "hull" 3 true []).1 [8, 5] []).1
                [6, 2] []).1, sampleEnv.IsAbsolutePath p = true)) :=
  ⟨by decide,
    ⟨false, ReachableFrom.setExcludePaths [6, 2] []
      (ReachableFrom.setRootPaths [8, 5] [] (ReachableFrom.rooted "n" "hull" 3 true []))⟩,
    reachable_paths_absolute sampleEnv _ (by decide)
      ⟨false, ReachableFrom.setExcludePaths [6, 2] []
        (ReachableFrom.setRootPaths [8, 5] [] (ReachableFrom.rooted "n" "hull" 3 true []))⟩⟩

/-- C17. The hashes of equal descriptors may differ: with the combine
function of `boost::hash_combine` on a machine word, two descriptors with
the same name, repr name, forced flag and root paths, no exclude paths, and
different masks (each a machine word) are equal under `==` and have
different `ComputeHash` values. -/
theorem different_mask_different_hash (env : Collaborators P) (a b : HdRprimCollection P)
    (hname : a._name = b._name) (hrepr : a._reprName = b._reprName)
    (hforced : a._forcedRepr = b._forcedRepr) (hroots : a._rootPaths = b._rootPaths)
    (hea : a._excludePaths = []) (heb : b._excludePaths = [])
    (hwa : a._dirtyBitsMask < 2 ^ env.size_t_bits) (hwb : b._dirtyBitsMask < 2 ^ env.size_t_bits)
    (hmask : a._dirtyBitsMask ≠ b._dirtyBitsMask) :
    operatorEq a b = true ∧ ComputeHash env a ≠ ComputeHash env b := by
  refine ⟨by simp [operatorEq, hname, hrepr, hforced, hroots, hea, heb], ?_⟩
  intro hhash
  simp only [ComputeHash, hname, hrepr, hforced, hroots, hea, heb, List.foldl_nil] at hhash
  exact hmask (hash_combine_right_injective _ _ _ _ hwa hwb hhash)

theorem different_mask_different_hash_witness :
    (15 : Nat) < 2 ^ sampleEnv.size_t_bits ∧ (31 : Nat) < 2 ^ sampleEnv.size_t_bits
      ∧ (15 : Nat) ≠ 31
      ∧ (operatorEq
            ({ _name := "geometry", _reprName := "hull", _forcedRepr := true, _rootPaths := [4, 10],
               _excludePaths := [], _dirtyBitsMask := 15 } : HdRprimCollection Nat)
            { _name := "geometry", _reprName := "hull", _forcedRepr := true, _rootPaths := [4, 10],
              _excludePaths := [], _dirtyBitsMask := 31 } = true
        ∧ ComputeHash sampleEnv
            { _name := "geometry", _reprName := "hull", _forcedRepr := true, _rootPaths := [4, 10],
              _excludePaths := [], _dirtyBitsMask := 15 }
          ≠ ComputeHash sampleEnv
            { _name := "geometry", _reprName := "hull", _forcedRepr := true, _rootPaths := [4, 10],
              _excludePaths := [], _dirtyBitsMask := 31 }) :=
  ⟨by decide, by decide, by decide,
    different_mask_different_hash sampleEnv
      { _name := "geometry", _reprName := "hull", _forcedRepr := true, _rootPaths := [4, 10],
        _excludePaths := [], _dirtyBitsMask := 15 }
      { _name := "geometry", _reprName := "hull", _forcedRepr := true, _rootPaths := [4, 10],
        _excludePaths := [], _dirtyBitsMask := 31 }
      rfl rfl rfl rfl rfl rfl (by decide) (by decide) (by decide)⟩

/-- C18. Input-order insensitivity of the bulk setters: when every element
of `ps` is absolute and `qs` is a rearrangement of `ps`, `SetRootPaths` with
`ps` and with `qs` produce descriptors with identical `rootPaths`, indeed
identical descriptors, which are equal under `==` and have equal
`ComputeHash`; the same holds for `SetExcludePaths`. -/
theorem bulk_setters_ignore_input_order (env : Collaborators P) (d : HdRprimCollection P)
    (ps qs : List P) (sink : Diagnostics) (hps : ∀ p ∈ ps, env.IsAbsolutePath p = true)
    (hperm : qs.Perm ps) :
    (GetRootPaths (SetRootPaths env d ps sink).1 = GetRootPaths (SetRootPaths env d qs sink).1
        ∧ (SetRootPaths env d ps sink).1 = (SetRootPaths env d qs sink).1
        ∧ operatorEq (SetRootPaths env d ps sink).1 (SetRootPaths env d qs sink).1 = true
        ∧ ComputeHash env (SetRootPaths env d ps sink).1
            = ComputeHash env (SetRootPaths env d qs sink).1)
      ∧ (GetExcludePaths (SetExcludePaths env d ps sink).1
            = GetExcludePaths (SetExcludePaths env d qs sink).1
        ∧ (SetExcludePaths env d ps sink).1 = (SetExcludePaths env d qs sink).1
        ∧ operatorEq (SetExcludePaths env d ps sink).1 (SetExcludePaths env d qs sink).1 = true
        ∧ ComputeHash env (SetExcludePaths env d ps sink).1
            = ComputeHash env (SetExcludePaths env d qs sink).1) := by
  have hqs : ∀ p ∈ qs, env.IsAbsolutePath p = true := fun p hp => hps p (hperm.mem_iff.mp hp)
  have hnp := (firstNonAbsolute_eq_none env ps).mpr hps
  have hnq := (firstNonAbsolute_eq_none env qs).mpr hqs
  have hsort := std_sort_congr_perm ps qs hperm
  have hroot : (SetRootPaths env d ps sink).1 = (SetRootPaths env d qs sink).1 := by
    simp [SetRootPaths, hnp, hnq, hsort]
  have hexcl : (SetExcludePaths env d ps sink).1 = (SetExcludePaths env d qs sink).1 := by
    simp [SetExcludePaths, hnp, hnq, hsort]
  refine ⟨⟨by rw [hroot], hroot, ?_, by rw [hroot]⟩, ⟨by rw [hexcl], hexcl, ?_, by rw [hexcl]⟩⟩
  · rw [hroot]
    exact operatorEq_self _
  · rw [hexcl]
    exact operatorEq_self _

theorem bulk_setters_ignore_input_order_witness :
    (∀ p ∈ [8, 2, 6], sampleEnv.IsAbsolutePath p = true) ∧ [6, 8, 2].Perm [8, 2, 6]
      ∧ GetRootPaths (SetRootPaths sampleEnv sampleCollection [8, 2, 6] []).1
          = GetRootPaths (SetRootPaths sampleEnv sampleCollection [6, 8, 2] []).1
      ∧ GetExcludePaths (SetExcludePaths sampleEnv sampleCollection [8, 2, 6] []).1
          = GetExcludePaths (SetExcludePaths sampleEnv sampleCollection [6, 8, 2] []).1 :=
  ⟨by decide, by decide,
    (bulk_setters_ignore_input_order sampleEnv sampleCollection [8, 2, 6] [6, 8, 2] []
      (by decide) (by decide)).1.1,
    (bulk_setters_ignore_input_order sampleEnv sampleCollection [8, 2, 6] [6, 8, 2] []
      (by decide) (by decide)).2.1⟩

/-- C19. Setter/getter idempotence on reachable states: given that the
absolute root is absolute, for every reachable descriptor `d`, feeding
`GetRootPaths d` to `SetRootPaths` and `GetExcludePaths d` to
`SetExcludePaths` reports no error and leaves `d` unchanged in every
field; and for every descriptor and every input, calling `SetRootPaths`
twice in a row with that input gives the same descriptor as calling it
once. -/
theorem setters_idempotent_on_reachable (env : Collaborators P) (d : HdRprimCollection P)
    (ps : List P) (sink sink₂ : Diagnostics)
    (hroot : env.IsAbsolutePath env.AbsoluteRootPath = true) (h : Reachable env d) :
    SetRootPaths env d (GetRootPaths d) sink = (d, sink)
      ∧ SetExcludePaths env d (GetExcludePaths d) sink = (d, sink)
      ∧ ∀ e : HdRprimCollection P,
          (SetRootPaths env (SetRootPaths env e ps sink).1 ps sink₂).1
            = (SetRootPaths env e ps sink).1 := by
  obtain ⟨o, ho⟩ := h
  obtain ⟨hra, hea, hrs, hes⟩ := reachableFrom_paths_wellformed env hroot ho
  refine ⟨?_, ?_, ?_⟩
  · have hn := (firstNonAbsolute_eq_none env d._rootPaths).mpr hra
    simp [SetRootPaths, GetRootPaths, hn, std_sort_of_sorted _ hrs]
  · have hn := (firstNonAbsolute_eq_none env d._excludePaths).mpr hea
    simp [SetExcludePaths, GetExcludePaths, hn, std_sort_of_sorted _ hes]
  · intro e
    cases hf : firstNonAbsolute env ps <;> simp [SetRootPaths, hf]

theorem setters_idempotent_on_reachable_witness :
    sampleEnv.IsAbsolutePath sampleEnv.AbsoluteRootPath = true
      ∧ Reachable sampleEnv (SetRootPaths sampleEnv (mkDefault sampleEnv) [8, 2] []).1
      ∧ (SetRootPaths sampleEnv (SetRootPaths sampleEnv (mkDefault sampleEnv) [8, 2] []).1
            (GetRootPaths (SetRootPaths sampleEnv (mkDefault sampleEnv) [8, 2] []).1) ["earlier"]
          = ((SetRootPaths sampleEnv (mkDefault sampleEnv) [8, 2] []).1, ["earlier"])
        ∧ SetExcludePaths sampleEnv (SetRootPaths sampleEnv (mkDefault sampleEnv) [8, 2] []).1
            (GetExcludePaths (SetRootPaths sampleEnv (mkDefault sampleEnv) [8, 2] []).1) ["earlier"]
          = ((SetRootPaths sampleEnv (mkDefault sampleEnv) [8, 2] []).1, ["earlier"])
        ∧ ∀ e : HdRprimCollection Nat,
            (SetRootPaths sampleEnv (SetRootPaths sampleEnv e [4, 3] ["earlier"]).1 [4, 3] []).1
              = (SetRootPaths sampleEnv e [4, 3] ["earlier"]).1) :=
  ⟨by decide, ⟨true, ReachableFrom.setRootPaths [8, 2] [] ReachableFrom.default⟩,
    setters_idempotent_on_reachable sampleEnv _ [4, 3] ["earlier"] [] (by decide)
      ⟨true, ReachableFrom.setRootPaths [8, 2] [] ReachableFrom.default⟩⟩

/-- C20. Non-emptiness of `rootPaths` is not preserved by `SetRootPaths`: on
the empty sequence the validation loop finds nothing, no error is reported
and `rootPaths` is left empty; every constructor and every `SetRootPath`
with an absolute path yields exactly one root path, and yet a reachable
descriptor can have no root path at all. -/
theorem SetRootPaths_empty_clears_roots (env : Collaborators P) (d : HdRprimCollection P)
    (name reprName : TfToken) (forcedRepr : Bool) (rootPath path : P) (sink : Diagnostics) :
    firstNonAbsolute env ([] : List P) = none
      ∧ (SetRootPaths env d [] sink).2 = sink
      ∧ GetRootPaths (SetRootPaths env d [] sink).1 = []
      ∧ (GetRootPaths (mkDefault env)).length = 1
      ∧ (GetRootPaths (mkNamed env name reprName forcedRepr)).length = 1
      ∧ (GetRootPaths (mkRooted env name reprName rootPath forcedRepr sink).1).length = 1
      ∧ (env.IsAbsolutePath path = true →
          (GetRootPaths (SetRootPath env d path sink).1).length = 1)
      ∧ ∃ c, Reachable env c ∧ GetRootPaths c = [] := by
  refine ⟨rfl, rfl, rfl, rfl, rfl, ?_, ?_, ?_⟩
  · unfold mkRooted
    cases env.IsAbsolutePath rootPath <;> rfl
  · intro hp
    simp [SetRootPath, GetRootPaths, hp]
  · exact ⟨(SetRootPaths env (mkDefault env) [] sink).1,
      ⟨true, ReachableFrom.setRootPaths [] sink ReachableFrom.default⟩, rfl⟩

theorem SetRootPaths_empty_clears_roots_witness :
    sampleEnv.IsAbsolutePath 4 = true
      ∧ (GetRootPaths (SetRootPath sampleEnv sampleCollection 4 []).1).length = 1 :=
  ⟨by decide,
    (SetRootPaths_empty_clears_roots sampleEnv sampleCollection "n" "hull" true 6 4 []).2.2.2.2.2.2.1
      (by decide)⟩

end InvariantClaims

end HdRprimCollectionSpec
